import Mathlib

/-!
Verification development for histo_opt.py, a small script that parses
key=value command-line tokens into a configuration dictionary, reads a
numeric column from a comma-separated file, computes a bin layout, and
redraws a histogram chart on an animation timer.

Python floats are embedded as exact rationals, Python ints as integers.
String primitives (split, lower, strip) are re-implemented structurally
over the character list of a string so that all definitions evaluate
inside the kernel.
-/

namespace HistoOpt

/-! ## String primitives (models of the Python builtins used by the script) -/

/-- Splitting a character list at every occurrence of a separator character.
The result always has one more piece than there are separators, so an empty
input yields one empty piece, matching the Python str.split behavior. -/
def splitOnChar (sep : Char) : List Char → List (List Char)
  | [] => [[]]
  | c :: rest =>
    let r := splitOnChar sep rest
    if c = sep then [] :: r
    else
      match r with
      | [] => [[c]]
      | h :: t => (c :: h) :: t

/-- Model of the Python str.split method with a one-character separator, as
used by the script for line.split on a comma and arg.split on an equals
sign. -/
def splitStr (s : String) (sep : Char) : List String :=
  (splitOnChar sep s.data).map (fun l => String.mk l)

/-- Model of the Python str.lower method (the script only lowercases ASCII
configuration keys). -/
def lowerStr (s : String) : String := String.mk (s.data.map Char.toLower)

/-- Dropping whitespace from both ends of a character list. -/
def trimChars (l : List Char) : List Char :=
  ((l.dropWhile Char.isWhitespace).reverse.dropWhile Char.isWhitespace).reverse

/-- Model of the whitespace stripping that the Python float and int
constructors apply to a string argument before conversion. -/
def trimStr (s : String) : String := String.mk (trimChars s.data)

/-! ## Numeric conversion (models of the Python float and int builtins) -/

/-- Numeric value of a list of decimal digit characters. -/
def digitsVal (l : List Char) : ℕ := l.foldl (fun a c => 10 * a + (c.toNat - 48)) 0

/-- Conversion of an unsigned decimal character sequence, with an optional
single point and fractional part, to an exact rational; any other shape is
rejected. -/
def parseUnsigned (l : List Char) : Option ℚ :=
  let intPart := l.takeWhile Char.isDigit
  let rest := l.dropWhile Char.isDigit
  match rest with
  | [] => if intPart = [] then none else some (Rat.divInt (digitsVal intPart) 1)
  | '.' :: frac =>
    if frac.all Char.isDigit ∧ (intPart ≠ [] ∨ frac ≠ []) then
      some (Rat.divInt ((digitsVal intPart : ℤ) * 10 ^ frac.length + digitsVal frac)
        (10 ^ frac.length))
    else none
  | _ => none

/-- Model of the Python float builtin applied to a string: whitespace is
stripped, an optional sign is followed by a plain decimal literal, and
conversion failure is a ValueError, embedded here as none.  Exponent and
special forms are outside the fragment this program relies on. -/
def parseFloat (s : String) : Option ℚ :=
  match (trimStr s).data with
  | '+' :: rest => parseUnsigned rest
  | '-' :: rest => (parseUnsigned rest).map (fun q => -q)
  | l => parseUnsigned l

/-- Model of the Python int builtin applied to a string: whitespace is
stripped, an optional sign is followed by decimal digits, and conversion
failure is a ValueError, embedded here as none. -/
def parseInt (s : String) : Option ℤ :=
  match (trimStr s).data with
  | '+' :: rest => if rest ≠ [] ∧ rest.all Char.isDigit then some (digitsVal rest) else none
  | '-' :: rest => if rest ≠ [] ∧ rest.all Char.isDigit then some (-(digitsVal rest : ℤ)) else none
  | l => if l ≠ [] ∧ l.all Char.isDigit then some (digitsVal l) else none

/-! ## Configuration dictionary -/

/-- Values stored in the configuration dictionary: Python ints, Python
floats (both carried as exact numbers) and strings. -/
inductive Value where
  | int (n : ℤ)
  | float (q : ℚ)
  | str (s : String)
deriving DecidableEq, Repr

/-- Numeric reading of a value, as Python arithmetic accepts both ints and
floats. -/
def Value.asNum : Value → Option ℚ
  | .int n => some (n : ℚ)
  | .float q => some q
  | .str _ => none

/-- The configuration dictionary: an insertion-ordered association list,
matching the Python dict built by parse_args. -/
abbrev Config := List (String × Value)

/-- Dictionary lookup. -/
def lookupVal : Config → String → Option Value
  | [], _ => none
  | (k, v) :: rest, key => if k = key then some v else lookupVal rest key

/-- Dictionary assignment: an existing key is overwritten in place, a new
key is appended at the end, matching Python dict update order. -/
def insertVal : Config → String → Value → Config
  | [], key, v => [(key, v)]
  | (k, w) :: rest, key, v =>
    if k = key then (k, v) :: rest else (k, w) :: insertVal rest key v

/-! ## Sample extraction (read_data, lines 28 to 47 of the source) -/

/-- A file system for the embedding: a path maps to the list of lines of
the file, or to none when the open fails. -/
abbrev FS := String → Option (List String)

/-- Result of read_data. The openFail constructor records what the except
block printed before it raised; see read_data below. -/
inductive ReadResult where
  | ok (data : List ℚ)
  | openFail (printed : List String) (uncaught : String)
deriving DecidableEq, Repr

/-- The line loop of read_data: the counter i is zero exactly until the
first line has been skipped as a header; each later line is split on a
comma, and when it has more than one field the second field is converted
with float, appending on success and skipping the line on a ValueError. -/
def readLoop : List String → ℕ → List ℚ → List ℚ
  | [], _, data => data
  | line :: rest, i, data =>
    if i = 0 then readLoop rest (i + 1) data
    else
      let info := splitStr line ','
      if info.length > 1 then
        match parseFloat (info.getD 1 "") with
        | some q => readLoop rest i (data ++ [q])
        | none => readLoop rest i data
      else readLoop rest i data

/-- Embedding of read_data.  When the open fails the except block first
prints the error message naming the path and then calls display_help, a
function that is defined nowhere in the repository; in Python that call
raises a NameError, so the sys.exit on the following line is never
reached.  The openFail constructor records the lines printed up to the
point the NameError is raised, together with the uncaught exception. -/
def read_data (fs : FS) (filePath : String) : ReadResult :=
  match fs filePath with
  | some lines => .ok (readLoop lines 0 [])
  | none =>
    .openFail ["Error: The file \x27" ++ filePath ++ "\x27 could not be found or opened."]
      "NameError: name display_help is not defined"

/-- The per-line extraction, used to state what read_data computes: the
second comma-separated field of a line, when present and numeric. -/
def extractField (line : String) : Option ℚ :=
  let info := splitStr line ','
  if info.length > 1 then parseFloat (info.getD 1 "") else none

/-! ## Bin layout (lines 62 to 69 of the source) -/

/-- Model of the Python int builtin applied to a float: truncation toward
zero. -/
def pyInt (q : ℚ) : ℤ := if 0 ≤ q then ⌊q⌋ else -⌊-q⌋

/-- Embedding of the bin determination block of plot_histogram: when bins
is zero and binlength is positive, the bin count is the truncated quotient
of the range by the bin length; when binlength is zero and bins is
positive, the bin length is the exact quotient of the range by the bin
count; in every other case a ValueError is raised. -/
def binLayout (minrange maxrange binlength : ℚ) (bins : ℤ) : Except String (ℤ × ℚ) :=
  if bins = 0 ∧ 0 < binlength then
    .ok (pyInt ((maxrange - minrange) / binlength), binlength)
  else if binlength = 0 ∧ 0 < bins then
    .ok (bins, (maxrange - minrange) / (bins : ℚ))
  else
    .error "Either the number of bins or the bin length must be specified."

/-! ## Histogram drawing (lines 71 to 84 of the source) -/

/-- Modelled from the spec: the bar counting performed by the charting
library, which is not part of this repository.  The range from lo to hi is
divided into n equal bins; each bin is the half-open interval from its
lower edge (inclusive) to its upper edge (exclusive) and a sample is
counted in the bin containing it, samples outside the range being
discarded. -/
def histCounts (data : List ℚ) (n : ℕ) (lo hi : ℚ) : List ℕ :=
  (List.range n).map (fun i =>
    (data.filter (fun x =>
      decide (lo + (i : ℚ) * ((hi - lo) / (n : ℚ)) ≤ x) &&
        decide (x < lo + ((i : ℚ) + 1) * ((hi - lo) / (n : ℚ))))).length)

/-- Modelled from the spec: the n plus one equally spaced bin edges that
the charting library returns for n bins over the range from lo to hi. -/
def histEdges (n : ℕ) (lo hi : ℚ) : List ℚ :=
  (List.range (n + 1)).map (fun i => lo + (i : ℚ) * ((hi - lo) / (n : ℚ)))

/-- Embedding of the value-label loop of plot_histogram: each bin edge is
paired with its bar count, bars with a positive count are annotated at the
edge shifted by half a bin length. -/
def histLabels (edges : List ℚ) (values : List ℕ) (bin_length : ℚ) : List (ℚ × ℕ) :=
  ((edges.zip values).filter (fun p => decide (0 < p.2))).map
    (fun p => (p.1 + bin_length / 2, p.2))

/-- The drawn chart content of one render: the bin parameters, edges, bar
counts, entry count, bar color and value labels. -/
structure Histogram where
  nbins : ℤ
  bin_length : ℚ
  edges : List ℚ
  counts : List ℕ
  entries : ℕ
  color : String
  labels : List (ℚ × ℕ)
deriving DecidableEq, Repr

/-- Result of one call of plot_histogram: either a drawn chart, or an
uncaught Python exception together with whatever was printed before it was
raised. -/
inductive PlotResult where
  | drawn (h : Histogram)
  | raised (printed : List String) (exc : String)
deriving DecidableEq, Repr

/-- A dictionary read: Python subscripting returns the value and leaves
the dictionary as it was.  The configuration is threaded through every
access so that the frame property of the render cycle is a statement about
this embedding rather than an assumption. -/
def getVal (config : Config) (key : String) : Option Value × Config :=
  (lookupVal config key, config)

/-- Embedding of plot_histogram.  Reading a key that is absent raises a
KeyError; the reachable configurations always carry numbers under
maxrange, minrange, binlength and bins, an int under bins, and strings
under file and color, so the collapsed TypeError branches are written only
to make the function total.  A ValueError raised by the bin determination
block propagates uncaught, before the chart is cleared. -/
def plot_histogram (fs : FS) (config : Config) : PlotResult × Config :=
  let s1 := getVal config "file"
  let vfile := s1.1
  let config := s1.2
  match vfile with
  | none => (.raised [] "KeyError: file", config)
  | some (.int _) => (.raised [] "TypeError: open expects a string path", config)
  | some (.float _) => (.raised [] "TypeError: open expects a string path", config)
  | some (.str filePath) =>
    match read_data fs filePath with
    | .openFail printed exc => (.raised printed exc, config)
    | .ok data =>
      let s2 := getVal config "maxrange"
      let vmaxrange := s2.1
      let s3 := getVal s2.2 "minrange"
      let vminrange := s3.1
      let s4 := getVal s3.2 "color"
      let vcolor := s4.1
      let s5 := getVal s4.2 "bins"
      let vbins := s5.1
      let s6 := getVal s5.2 "binlength"
      let vbinlength := s6.1
      let config := s6.2
      match vmaxrange.bind Value.asNum, vminrange.bind Value.asNum,
          vcolor, vbins, vbinlength.bind Value.asNum with
      | some maxrange, some minrange, some (.str color), some (.int bins), some binlength =>
        let entries := data.length
        match binLayout minrange maxrange binlength bins with
        | .error msg => (.raised [] ("ValueError: " ++ msg), config)
        | .ok (nbins, bin_length) =>
          let counts := histCounts data nbins.toNat minrange maxrange
          let edges := histEdges nbins.toNat minrange maxrange
          let s7 := getVal config "values"
          let vvalues := s7.1
          let config := s7.2
          let labels :=
            if vvalues = some (.str "true") then histLabels edges counts bin_length else []
          (.drawn ⟨nbins, bin_length, edges, counts, entries, color, labels⟩, config)
      | _, _, _, _, _ =>
        (.raised [] "KeyError or TypeError while reading the configuration", config)

/-- Embedding of draw_histogram: the animation callback ignores the frame
index and replots. -/
def draw_histogram (_i : ℕ) (fs : FS) (config : Config) : PlotResult × Config :=
  plot_histogram fs config

/-- One animation frame acting on the chart state: on success the render
cycle clears the prior content and draws the new chart; when an exception
is raised it happens before the clearing call, so the chart is left as it
was. -/
def cycleChart (fs : FS) (config : Config) (chart : Option Histogram) : Option Histogram :=
  match (plot_histogram fs config).1 with
  | .drawn h => some h
  | .raised _ _ => chart

/-- The bin-layout computation as performed by the render path on a
configuration dictionary: fetch maxrange, minrange, bins and binlength and
apply the bin determination block. -/
def configLayout (config : Config) : Except String (ℤ × ℚ) :=
  match (lookupVal config "maxrange").bind Value.asNum,
      (lookupVal config "minrange").bind Value.asNum,
      lookupVal config "bins",
      (lookupVal config "binlength").bind Value.asNum with
  | some maxrange, some minrange, some (.int bins), some binlength =>
    binLayout minrange maxrange binlength bins
  | _, _, _, _ => .error "KeyError or TypeError while reading the configuration"

/-! ## Argument parsing (parse_args, lines 95 to 125 of the source) -/

/-- Stand-in for the module docstring that the error path prints; the
claims only depend on the usage text being printed, not on its wording. -/
def usageText : String :=
  "This script animates a histogram that reads data from a file and dynamically updates it."

/-- The keys converted with float. -/
def floatKeys : List String := ["binlength", "maxrange", "minrange"]

/-- The keys stored as text. -/
def strKeys : List String := ["file", "color", "values"]

/-- All keys the resolver recognizes, in lower case. -/
def recognizedKeys : List String :=
  ["binlength", "maxrange", "minrange", "file", "color", "values", "bins"]

/-- The default configuration dictionary of parse_args.  There is no file
entry among the defaults. -/
def initialConfig : Config :=
  [("binlength", .int 0), ("maxrange", .float 1500000), ("minrange", .int 0),
   ("color", .str "b"), ("values", .str "true"), ("bins", .int 0)]

/-- Processing of one command-line token.  A token that does not split on
the equals sign into exactly a key and a value raises a ValueError at the
tuple unpacking, and a recognized numeric key whose value fails conversion
raises a ValueError inside the same try block; both are caught by the
handler that prints the docstring and calls sys.exit with a message, which
terminates the process with exit status 1.  The error value records the
printed usage text and the exit message.  The key is matched after
lowercasing but the assignment stores under the original key; unknown keys
are silently ignored. -/
def processArg (config : Config) (arg : String) : Except (List String × String) Config :=
  match splitStr arg '=' with
  | [key, value] =>
    if floatKeys.contains (lowerStr key) then
      match parseFloat value with
      | some q => .ok (insertVal config key (.float q))
      | none => .error ([usageText], "Invalid argument format: " ++ arg)
    else if strKeys.contains (lowerStr key) then
      .ok (insertVal config key (.str value))
    else if lowerStr key = "bins" then
      match parseInt value with
      | some n => .ok (insertVal config key (.int n))
      | none => .error ([usageText], "Invalid argument format: " ++ arg)
    else
      .ok config
  | _ => .error ([usageText], "Invalid argument format: " ++ arg)

/-- Embedding of parse_args over the token list. -/
def parse_args (args : List String) : Except (List String × String) Config :=
  args.foldlM processArg initialConfig

/-- Outcome of main: either the process exited from argument parsing after
printing the usage text, with no chart ever rendered, or the animation
started and every frame behaves as the first one. -/
inductive MainResult where
  | usageExited (printed : List String) (exitMsg : String)
  | animated (firstFrame : PlotResult)
deriving DecidableEq, Repr

/-- Embedding of main: parse the arguments, then hand draw_histogram to
the animation driver. -/
def main (fs : FS) (args : List String) : MainResult :=
  match parse_args args with
  | .error e => .usageExited e.1 e.2
  | .ok config => .animated (draw_histogram 0 fs config).1

/-! ## Helper lemmas -/

/-- The length of a filterMap is the number of elements on which the
function succeeds. -/
lemma filterMap_length_countP {α β : Type} (f : α → Option β) :
    ∀ l : List α, (l.filterMap f).length = l.countP (fun x => (f x).isSome) := by
  intro l
  induction l with
  | nil => simp
  | cons hd t ih =>
    cases h : f hd with
    | none => simp [List.filterMap_cons, List.countP_cons, h, ih]
    | some q => simp [List.filterMap_cons, List.countP_cons, h, ih]

/-- One step of the line loop after the header has been skipped. -/
lemma readLoop_succ (l : String) (t : List String) (acc : List ℚ) :
    readLoop (l :: t) 1 acc =
      match extractField l with
      | some q => readLoop t 1 (acc ++ [q])
      | none => readLoop t 1 acc := by
  rw [readLoop]
  simp only [extractField, if_neg (by decide : ¬ (1 = 0))]
  split_ifs with h
  · rfl
  · rfl

/-- After the header line the loop appends exactly the successful
extractions, in order. -/
lemma readLoop_eq (t : List String) : ∀ acc, readLoop t 1 acc = acc ++ t.filterMap extractField := by
  induction t with
  | nil => intro acc; simp [readLoop]
  | cons l t ih =>
    intro acc
    rw [readLoop_succ]
    cases h : extractField l with
    | none => simp [List.filterMap_cons, h, ih]
    | some q => simp [List.filterMap_cons, h, ih]

/-! ## Claim theorems -/

/-- C1: the claim says a failed open prints an error naming the path,
prints the help text and exits with status 1.  The code does print the
error naming the path, but the next statement of the except block calls
display_help, a function the repository never defines, so a NameError is
raised: no help text is printed and the sys.exit call with status 1 is
never executed.  This theorem evaluates the embedded error path. -/
theorem read_data_openFail (fs : FS) (filePath : String) (h : fs filePath = none) :
    read_data fs filePath =
      .openFail ["Error: The file \x27" ++ filePath ++ "\x27 could not be found or opened."]
        "NameError: name display_help is not defined" := by
  unfold read_data
  rw [h]

/-- Witness for the C1 evidence theorem at a concrete failing path. -/
theorem read_data_openFail_witness :
    ((fun _ => none : FS) "missing.csv" = none) ∧
    read_data (fun _ => none) "missing.csv" =
      .openFail ["Error: The file \x27" ++ "missing.csv" ++ "\x27 could not be found or opened."]
        "NameError: name display_help is not defined" :=
  ⟨rfl, read_data_openFail (fun _ => none) "missing.csv" rfl⟩

/-- C4: sample extraction skips the first line unconditionally, skips
every later line with fewer than two comma-separated fields, skips every
line whose second field fails the float conversion, and appends the parsed
second field of every remaining line, in order; consequently the sample
count equals the number of well-formed data rows and no malformed row
aborts the run (the result is always ok when the file opens). -/
theorem read_data_characterization (fs : FS) (filePath : String) (lines : List String)
    (h : fs filePath = some lines) :
    read_data fs filePath = .ok ((lines.drop 1).filterMap extractField) ∧
    ((lines.drop 1).filterMap extractField).length =
      (lines.drop 1).countP (fun line => (extractField line).isSome) := by
  constructor
  · unfold read_data
    rw [h]
    cases lines with
    | nil => simp [readLoop]
    | cons hd t =>
      have h0 : readLoop (hd :: t) 0 [] = readLoop t 1 [] := by rw [readLoop]; simp
      simp [h0, readLoop_eq]
  · exact filterMap_length_countP extractField (lines.drop 1)

/-- Witness for C4 on a small concrete file with a short row, a row whose
second field is not numeric, and an extra-field row: of the four data rows
exactly two are well formed. -/
theorem read_data_characterization_witness :
    read_data (fun _ => some ["header", "a,1", "bad", "x,y", "b,25,z"]) "data.csv" =
      .ok [1, 25] ∧ (2 : ℕ) =
      (["a,1", "bad", "x,y", "b,25,z"] : List String).countP
        (fun line => (extractField line).isSome) :=
  ⟨(read_data_characterization (fun _ => some ["header", "a,1", "bad", "x,y", "b,25,z"])
      "data.csv" ["header", "a,1", "bad", "x,y", "b,25,z"] rfl).1,
   (read_data_characterization (fun _ => some ["header", "a,1", "bad", "x,y", "b,25,z"])
      "data.csv" ["header", "a,1", "bad", "x,y", "b,25,z"] rfl).2⟩

/-! ## The C5 scenario -/

/-- The scenario file contents, as the lines Python iterates over. -/
def scenarioLines : List String := ["header", "1,10.0", "2,20.0", "3,bad", "4,30.0"]

/-- A file system holding the scenario file. -/
def scenarioFs : FS := fun _ => some scenarioLines

/-- The configuration produced by parsing the scenario settings. -/
def scenarioConfig : Config :=
  [("binlength", .int 0), ("maxrange", .float 40), ("minrange", .float 0),
   ("color", .str "b"), ("values", .str "true"), ("bins", .int 4),
   ("file", .str "data.csv")]

/-- C5: on the file header, 1 comma 10.0, 2 comma 20.0, 3 comma bad,
4 comma 30.0 with minrange 0, maxrange 40 and bins 4, the extracted sample
set is 10.0, 20.0, 30.0 (the row with the bad field is skipped), the bin
width is 10, the edges are 0, 10, 20, 30, 40 and the bar counts over the
four bins are 0, 1, 1, 1. -/
theorem scenario_histogram :
    parse_args ["file=data.csv", "minrange=0", "maxrange=40", "bins=4"] = .ok scenarioConfig ∧
    read_data scenarioFs "data.csv" = .ok [10, 20, 30] ∧
    binLayout 0 40 0 4 = .ok (4, 10) ∧
    (plot_histogram scenarioFs scenarioConfig).1 =
      .drawn ⟨4, 10, [0, 10, 20, 30, 40], [0, 1, 1, 1], 3, "b",
        [(15, 1), (25, 1), (35, 1)]⟩ := by
  have hw : ((40 : ℚ) - 0) / ((4 : ℤ) : ℚ) = 10 := by norm_num
  have hc : histCounts [10, 20, 30] 4 0 40 = [0, 1, 1, 1] := by
    norm_num [histCounts, List.range_succ]
  have he : histEdges 4 0 40 = [0, 10, 20, 30, 40] := by
    norm_num [histEdges, List.range_succ]
  have hl : histLabels [0, 10, 20, 30, 40] [0, 1, 1, 1] 10 = [(15, 1), (25, 1), (35, 1)] := by
    norm_num [histLabels]
  refine ⟨rfl, rfl, ?_, ?_⟩
  · unfold binLayout
    rw [if_neg (by norm_num), if_pos (by norm_num : (0 : ℚ) = 0 ∧ (0 : ℤ) < 4)]
    rw [show ((40 : ℚ) - 0) / ((4 : ℤ) : ℚ) = 10 from hw]
  · have hplot : (plot_histogram scenarioFs scenarioConfig).1 =
        .drawn ⟨4, ((40 : ℚ) - 0) / ((4 : ℤ) : ℚ), histEdges 4 0 40,
          histCounts [10, 20, 30] 4 0 40, 3, "b",
          histLabels (histEdges 4 0 40) (histCounts [10, 20, 30] 4 0 40)
            (((40 : ℚ) - 0) / ((4 : ℤ) : ℚ))⟩ := rfl
    rw [hplot, hw, hc, he, hl]

/-! ## Bin layout claims -/

/-- The predicate of the C2 claim: exactly one of the bin length and the
bin count is non-zero. -/
def exactlyOneNonzero (binlength : ℚ) (bins : ℤ) : Prop :=
  (binlength ≠ 0 ∧ bins = 0) ∨ (bins ≠ 0 ∧ binlength = 0)

/-- C2 counterexample: with binlength minus one and bins zero, exactly one
of the two is non-zero, yet the bin determination block raises the
configuration error, because the code tests for a positive value and not
merely a non-zero one.  The offending settings record is reachable from
the command line, as the final conjunct shows. -/
theorem binLayout_nonzero_cex :
    exactlyOneNonzero (-1) 0 ∧
    binLayout 0 1500000 (-1) 0 =
      .error "Either the number of bins or the bin length must be specified." ∧
    parse_args ["binlength=-1"] = .ok (insertVal initialConfig "binlength" (.float (-1))) := by
  refine ⟨Or.inl ⟨by norm_num, rfl⟩, ?_, rfl⟩
  unfold binLayout
  rw [if_neg (by norm_num), if_neg (by norm_num)]

/-- C2 amended: the bin determination block raises the configuration error
if and only if it is not the case that one of binlength and bins is zero
while the other is strictly positive; a negative value in the non-zero
slot also raises. -/
theorem binLayout_error_iff (minrange maxrange binlength : ℚ) (bins : ℤ) :
    (∃ msg, binLayout minrange maxrange binlength bins = .error msg) ↔
      ¬ ((bins = 0 ∧ 0 < binlength) ∨ (binlength = 0 ∧ 0 < bins)) := by
  unfold binLayout
  split_ifs with h1 h2
  · simp [h1]
  · simp [h2, h1]
  · simp [h1, h2]

/-- C3 counterexample: with minrange 10, maxrange 0, binlength 4 and bins
zero, the code computes the bin count with the Python int conversion,
which truncates toward zero and yields minus two, while the floor of the
quotient is minus three; so the computed bin count is not the floor for
every settings record. -/
theorem binLayout_floor_cex :
    binLayout 10 0 4 0 = .ok (-2, 4) ∧
    ⌊(((0 : ℚ) - 10) / 4)⌋ = -3 ∧ ((-2 : ℤ) ≠ -3) := by
  refine ⟨?_, by norm_num, by decide⟩
  unfold binLayout
  rw [if_pos (by norm_num : (0 : ℤ) = 0 ∧ (0 : ℚ) < 4)]
  norm_num [pyInt]

/-- C3 amended: when binlength is zero and bins is a positive B, the
computed bin width is exactly the range divided by B; when bins is zero
and binlength is a positive L, the computed bin count is the truncation
toward zero of the range divided by L, which agrees with the floor
whenever minrange is at most maxrange. -/
theorem binLayout_values (minrange maxrange binlength : ℚ) (bins : ℤ) :
    (binlength = 0 → 0 < bins →
      binLayout minrange maxrange binlength bins =
        .ok (bins, (maxrange - minrange) / (bins : ℚ))) ∧
    (bins = 0 → 0 < binlength →
      binLayout minrange maxrange binlength bins =
        .ok (pyInt ((maxrange - minrange) / binlength), binlength) ∧
      (minrange ≤ maxrange →
        pyInt ((maxrange - minrange) / binlength) = ⌊(maxrange - minrange) / binlength⌋)) := by
  constructor
  · intro hL hB
    unfold binLayout
    rw [if_neg (fun hand => absurd (hand.1 ▸ hB) (lt_irrefl 0)), if_pos ⟨hL, hB⟩]
  · intro hB hL
    refine ⟨?_, ?_⟩
    · unfold binLayout
      rw [if_pos ⟨hB, hL⟩]
    · intro hle
      unfold pyInt
      rw [if_pos (div_nonneg (sub_nonneg.mpr hle) hL.le)]

/-- Witness for the amended C3 theorem, exercising both branches at
concrete settings. -/
theorem binLayout_values_witness :
    binLayout 0 40 0 4 = .ok (4, ((40 : ℚ) - 0) / ((4 : ℤ) : ℚ)) ∧
    binLayout 0 40 10 0 = .ok (pyInt (((40 : ℚ) - 0) / 10), 10) ∧
    pyInt (((40 : ℚ) - 0) / 10) = ⌊((40 : ℚ) - 0) / 10⌋ :=
  ⟨(binLayout_values 0 40 0 4).1 rfl (by norm_num),
   ((binLayout_values 0 40 10 0).2 rfl (by norm_num)).1,
   ((binLayout_values 0 40 10 0).2 rfl (by norm_num)).2 (by norm_num)⟩

/-! ## Render cycle claims -/

/-- C7: the render cycle is deterministic in the settings and the file
contents: the animation callback does not depend on the frame index, and
running the frame twice on the same unchanged file leaves the same chart
as running it once, with the same bin layout and bar heights, whatever
chart content was on screen before. -/
theorem render_cycle_deterministic (fs : FS) (config : Config) (chart : Option Histogram)
    (i j : ℕ) :
    draw_histogram i fs config = draw_histogram j fs config ∧
    cycleChart fs config (cycleChart fs config chart) = cycleChart fs config chart := by
  refine ⟨rfl, ?_⟩
  unfold cycleChart
  cases h : (plot_histogram fs config).1 <;> simp

/-- C8: neither sample extraction nor the render cycle changes the
configuration dictionary: the threaded configuration returned by
plot_histogram, and by the animation callback for any frame index, is the
one passed in, so no key is added, removed or reassigned after parsing
(read_data does not even receive the configuration). -/
theorem config_unchanged (fs : FS) (config : Config) (i : ℕ) :
    (plot_histogram fs config).2 = config ∧ (draw_histogram i fs config).2 = config := by
  have h : (plot_histogram fs config).2 = config := by
    simp only [plot_histogram, getVal]
    repeat' split
    all_goals rfl
  exact ⟨h, h⟩

/-! ## Argument parsing claims -/

/-- A token that does not split into exactly a key and a value makes
processArg abort with the usage text and the exit message. -/
lemma processArg_malformed (c : Config) (arg : String)
    (h : (splitStr arg '=').length ≠ 2) :
    processArg c arg = .error ([usageText], "Invalid argument format: " ++ arg) := by
  unfold processArg
  rcases hs : splitStr arg '=' with _ | ⟨a, _ | ⟨b, _ | ⟨x, t⟩⟩⟩
  · rfl
  · rfl
  · exact absurd (by rw [hs]; rfl) h
  · rfl

/-- Every error processArg returns carries the usage text and the exit
message naming the offending token. -/
lemma processArg_error_shape (c : Config) (arg : String) (e : List String × String)
    (h : processArg c arg = .error e) :
    e = ([usageText], "Invalid argument format: " ++ arg) := by
  unfold processArg at h
  rcases hs : splitStr arg '=' with _ | ⟨a, _ | ⟨b, _ | ⟨x, t⟩⟩⟩ <;> rw [hs] at h
  · injection h with h1; exact h1.symm
  · injection h with h1; exact h1.symm
  · dsimp only at h
    repeat' split at h
    all_goals first
      | exact Except.noConfusion h
      | (injection h with h1; exact h1.symm)
  · injection h with h1; exact h1.symm

/-- A malformed member of the token list makes the whole fold abort with
the usage text, from any starting configuration. -/
lemma foldlM_error_of_mem (args : List String) (arg : String) (hmem : arg ∈ args)
    (hbad : (splitStr arg '=').length ≠ 2) :
    ∀ c : Config, ∃ bad, args.foldlM processArg c =
      .error ([usageText], "Invalid argument format: " ++ bad) := by
  induction args with
  | nil => cases hmem
  | cons a as ih =>
    intro c
    rw [List.foldlM_cons]
    rcases List.mem_cons.mp hmem with rfl | hmem'
    · refine ⟨arg, ?_⟩
      rw [processArg_malformed c arg hbad]
      rfl
    · cases hp : processArg c a with
      | error e =>
        refine ⟨a, ?_⟩
        rw [processArg_error_shape c a e hp]
        rfl
      | ok c' =>
        exact ih hmem' c'

/-- C6: every token list containing a malformed token (one that does not
split on the equals sign into exactly two parts) makes argument parsing
print the usage text and terminate the process through sys.exit with a
message, hence with a non-zero status, and main never reaches the
animation, so no chart is rendered. -/
theorem parse_args_malformed (args : List String) (arg : String) (hmem : arg ∈ args)
    (hbad : (splitStr arg '=').length ≠ 2) :
    ∃ bad, parse_args args = .error ([usageText], "Invalid argument format: " ++ bad) ∧
      ∀ fs, main fs args = .usageExited [usageText] ("Invalid argument format: " ++ bad) := by
  obtain ⟨bad, hb⟩ := foldlM_error_of_mem args arg hmem hbad initialConfig
  have hb' : parse_args args = .error ([usageText], "Invalid argument format: " ++ bad) := hb
  refine ⟨bad, hb', fun fs => ?_⟩
  unfold main
  rw [hb']

/-- Witness for C6 on the invalid token bins, which has no equals sign. -/
theorem parse_args_malformed_witness :
    ("bins" ∈ (["bins"] : List String)) ∧ ((splitStr "bins" '=').length ≠ 2) ∧
    ∃ bad, parse_args ["bins"] = .error ([usageText], "Invalid argument format: " ++ bad) ∧
      ∀ fs, main fs ["bins"] = .usageExited [usageText] ("Invalid argument format: " ++ bad) :=
  ⟨List.mem_singleton.mpr rfl, by decide,
   parse_args_malformed ["bins"] "bins" (List.mem_singleton.mpr rfl) (by decide)⟩

/-- Looking up the key just inserted returns the inserted value. -/
lemma lookup_insertVal_self (c : Config) (key : String) (v : Value) :
    lookupVal (insertVal c key v) key = some v := by
  induction c with
  | nil => simp [insertVal, lookupVal]
  | cons p rest ih =>
    obtain ⟨k, w⟩ := p
    by_cases hk : k = key
    · simp [insertVal, lookupVal, hk]
    · simp [insertVal, lookupVal, hk, ih]

/-- Inserting under one key leaves every other lookup unchanged. -/
lemma lookup_insertVal_ne (c : Config) (key other : String) (v : Value) (h : key ≠ other) :
    lookupVal (insertVal c key v) other = lookupVal c other := by
  induction c with
  | nil => simp [insertVal, lookupVal, h]
  | cons p rest ih =>
    obtain ⟨k, w⟩ := p
    by_cases hk : k = key
    · subst hk
      simp [insertVal, lookupVal, h]
    · by_cases ho : k = other
      · subst ho
        simp [insertVal, lookupVal, hk]
      · simp [insertVal, lookupVal, hk, ho, ih]

/-- A key that differs from its own lowercasing differs from every string
that lowercases to itself. -/
lemma ne_of_ne_lower (key rk : String) (hrk : lowerStr rk = rk)
    (hne : key ≠ lowerStr key) : key ≠ rk := by
  intro heq
  apply hne
  rw [heq, hrk]

/-- C9: a well-formed token whose key matches a recognized key only after
lowercasing, but not exactly, is accepted without error; the value is
stored under the original-case key, every recognized lower-case key keeps
its default value, and the bin-layout computation of the render path is
unaffected by the supplied value. -/
theorem parse_args_case_insensitive (arg key value : String)
    (hsplit : splitStr arg '=' = [key, value])
    (hne : key ≠ lowerStr key)
    (hkey : (lowerStr key ∈ floatKeys ∧ (parseFloat value).isSome = true) ∨
            lowerStr key ∈ strKeys ∨
            (lowerStr key = "bins" ∧ (parseInt value).isSome = true)) :
    ∃ v : Value,
      parse_args [arg] = .ok (insertVal initialConfig key v) ∧
      lookupVal (insertVal initialConfig key v) key = some v ∧
      (∀ rk ∈ recognizedKeys, lookupVal (insertVal initialConfig key v) rk =
        lookupVal initialConfig rk) ∧
      configLayout (insertVal initialConfig key v) = configLayout initialConfig := by
  have hnotin : ∀ rk ∈ recognizedKeys, key ≠ rk := by
    intro rk hrk
    have hlow : lowerStr rk = rk := by fin_cases hrk <;> rfl
    exact ne_of_ne_lower key rk hlow hne
  have hlayout : ∀ v : Value,
      configLayout (insertVal initialConfig key v) = configLayout initialConfig := by
    intro v
    unfold configLayout
    rw [lookup_insertVal_ne _ _ _ _ (hnotin "maxrange" (by decide)),
        lookup_insertVal_ne _ _ _ _ (hnotin "minrange" (by decide)),
        lookup_insertVal_ne _ _ _ _ (hnotin "bins" (by decide)),
        lookup_insertVal_ne _ _ _ _ (hnotin "binlength" (by decide))]
  have hpres : ∀ v : Value, ∀ rk ∈ recognizedKeys,
      lookupVal (insertVal initialConfig key v) rk = lookupVal initialConfig rk :=
    fun v rk hrk => lookup_insertVal_ne _ _ _ _ (hnotin rk hrk)
  rcases hkey with ⟨hf, hv⟩ | hs | ⟨hb, hv⟩
  · obtain ⟨q, hq⟩ := Option.isSome_iff_exists.mp hv
    have hf' : lowerStr key = "binlength" ∨ lowerStr key = "maxrange" ∨
        lowerStr key = "minrange" := by
      simpa [floatKeys] using hf
    have hp : processArg initialConfig arg = .ok (insertVal initialConfig key (.float q)) := by
      unfold processArg
      rw [hsplit]
      dsimp only
      rcases hf' with h | h | h <;> rw [h, hq] <;> rfl
    exact ⟨.float q, by unfold parse_args; rw [List.foldlM_cons, hp]; rfl,
      lookup_insertVal_self _ _ _, hpres _, hlayout _⟩
  · have hs' : lowerStr key = "file" ∨ lowerStr key = "color" ∨ lowerStr key = "values" := by
      simpa [strKeys] using hs
    have hp : processArg initialConfig arg = .ok (insertVal initialConfig key (.str value)) := by
      unfold processArg
      rw [hsplit]
      dsimp only
      rcases hs' with h | h | h <;> rw [h] <;> rfl
    exact ⟨.str value, by unfold parse_args; rw [List.foldlM_cons, hp]; rfl,
      lookup_insertVal_self _ _ _, hpres _, hlayout _⟩
  · obtain ⟨n, hq⟩ := Option.isSome_iff_exists.mp hv
    have hp : processArg initialConfig arg = .ok (insertVal initialConfig key (.int n)) := by
      unfold processArg
      rw [hsplit]
      dsimp only
      rw [hb, hq]
      rfl
    exact ⟨.int n, by unfold parse_args; rw [List.foldlM_cons, hp]; rfl,
      lookup_insertVal_self _ _ _, hpres _, hlayout _⟩

/-- Witness for C9: with the token BINS equals 5, parsing succeeds, the
value lands under the upper-case key, the lower-case bins entry keeps its
default, and the bin-layout computation is unchanged. -/
theorem parse_args_case_insensitive_witness :
    splitStr "BINS=5" '=' = ["BINS", "5"] ∧ ("BINS" ≠ lowerStr "BINS") ∧
    ∃ v : Value,
      parse_args ["BINS=5"] = .ok (insertVal initialConfig "BINS" v) ∧
      lookupVal (insertVal initialConfig "BINS" v) "BINS" = some v ∧
      (∀ rk ∈ recognizedKeys, lookupVal (insertVal initialConfig "BINS" v) rk =
        lookupVal initialConfig rk) ∧
      configLayout (insertVal initialConfig "BINS" v) = configLayout initialConfig :=
  ⟨rfl, by decide,
   parse_args_case_insensitive "BINS=5" "BINS" "5" rfl (by decide)
     (Or.inr (Or.inr ⟨rfl, rfl⟩))⟩

/-- One accepted token that is not a file assignment cannot create the
file key. -/
lemma processArg_preserves_no_file (c c' : Config) (arg : String)
    (hc : lookupVal c "file" = none)
    (hno : ∀ value, splitStr arg '=' ≠ ["file", value])
    (hp : processArg c arg = .ok c') :
    lookupVal c' "file" = none := by
  unfold processArg at hp
  rcases hsp : splitStr arg '=' with _ | ⟨key, _ | ⟨value, _ | ⟨x, t⟩⟩⟩ <;> rw [hsp] at hp
  · exact Except.noConfusion hp
  · exact Except.noConfusion hp
  · have hkey : key ≠ "file" := by
      intro hk
      exact hno value (by rw [hsp, hk])
    dsimp only at hp
    repeat' split at hp
    all_goals first
      | exact Except.noConfusion hp
      | (injection hp with h1; rw [← h1, lookup_insertVal_ne _ _ _ _ hkey]; exact hc)
      | (injection hp with h1; rw [← h1]; exact hc)
  · exact Except.noConfusion hp

/-- Accepted token lists without a file assignment produce configurations
without the file key, from any starting configuration without it. -/
lemma foldlM_no_file (args : List String) :
    ∀ c cfg : Config, lookupVal c "file" = none →
      args.foldlM processArg c = .ok cfg →
      (∀ arg ∈ args, ∀ value, splitStr arg '=' ≠ ["file", value]) →
      lookupVal cfg "file" = none := by
  induction args with
  | nil =>
    intro c cfg hc h _
    injection h with h1
    rw [← h1]
    exact hc
  | cons a as ih =>
    intro c cfg hc h hno
    rw [List.foldlM_cons] at h
    cases hp : processArg c a with
    | error e => rw [hp] at h; exact Except.noConfusion h
    | ok c' =>
      rw [hp] at h
      exact ih c' cfg
        (processArg_preserves_no_file c c' a hc (hno a (List.mem_cons_self a as)) hp) h
        (fun arg hm v => hno arg (List.mem_cons_of_mem a hm) v)

/-- C10: the default configuration has no file entry; an invocation whose
accepted tokens never assign the file key parses successfully into a
configuration still lacking it, and the first render cycle then raises an
uncaught KeyError at the read of the file entry, printing nothing, instead
of taking the documented file-open error path that prints an error and the
help text and exits with status 1. -/
theorem missing_file_keyerror (fs : FS) (args : List String) (cfg : Config)
    (h : parse_args args = .ok cfg)
    (hno : ∀ arg ∈ args, ∀ value, splitStr arg '=' ≠ ["file", value]) :
    lookupVal initialConfig "file" = none ∧
    parse_args [] = .ok initialConfig ∧
    lookupVal cfg "file" = none ∧
    (plot_histogram fs cfg).1 = .raised [] "KeyError: file" := by
  have hfile : lookupVal cfg "file" = none := foldlM_no_file args initialConfig cfg rfl h hno
  refine ⟨rfl, rfl, hfile, ?_⟩
  simp only [plot_histogram, getVal]
  rw [hfile]

/-- Witness for C10 at the empty invocation. -/
theorem missing_file_keyerror_witness :
    parse_args [] = .ok initialConfig ∧
    lookupVal initialConfig "file" = none ∧
    (plot_histogram (fun _ => none) initialConfig).1 = .raised [] "KeyError: file" := by
  have m := missing_file_keyerror (fun _ => none) [] initialConfig rfl
    (fun arg hm => absurd hm (List.not_mem_nil arg))
  exact ⟨m.2.1, m.1, m.2.2.2⟩

end HistoOpt
